import Mathlib

/-
Verification of the text-editing core of the pyne editor
(src/editor/mod.rs, src/editor/buffer.rs, src/editor/cursor_movement.rs,
src/editor/mode.rs), as a shallow embedding.

Rope text is modelled as `List Char`; the ropey operations used by the
code (len_chars, len_lines, char_to_line, line_to_char, line, insert,
remove) are given faithful List-based definitions.  Rust `usize`
arithmetic that can panic on underflow (plain `-`) is modelled with a
checked subtraction in the `Except String` monad; `saturating_sub` is
Nat truncated subtraction, which is exactly saturating.  File-system
and clipboard effects are out of scope: paths are abstracted to `Nat`
keys and `fs::write` / `fs::read_to_string` are taken at their
successful case, which is all the claims about state change need.
-/

namespace Pyne

/-- The newline test used throughout the rope model. -/
def isNl (c : Char) : Bool := c == '\n'

/-- ropey `Rope::len_chars`. -/
def lenChars (r : List Char) : Nat := r.length

/-- ropey `Rope::len_lines`: one more than the number of newlines. -/
def lenLines (r : List Char) : Nat := r.countP isNl + 1

/-- ropey `Rope::char_to_line`: the line index containing char offset `i`,
i.e. the number of newlines strictly before `i`.  (ropey panics for
`i > len_chars`; callers below guard that case explicitly.) -/
def charToLine (r : List Char) (i : Nat) : Nat := (r.take i).countP isNl

/-- ropey `Rope::line_to_char`: the char offset at which line `l` starts;
for `l = len_lines` this is `len_chars`. -/
def lineToChar : List Char → Nat → Nat
  | _, 0 => 0
  | [], _ + 1 => 0
  | c :: cs, l + 1 =>
    if isNl c then 1 + lineToChar cs l else 1 + lineToChar cs (l + 1)

/-- ropey `Rope::line l` as a char list, including the trailing newline
when the line has one. -/
def ropeLine (r : List Char) (l : Nat) : List Char :=
  (r.take (lineToChar r (l + 1))).drop (lineToChar r l)

/-- ropey `Rope::insert` at char offset `i`. -/
def ropeInsert (r : List Char) (i : Nat) (s : List Char) : List Char :=
  r.take i ++ s ++ r.drop i

/-- ropey `Rope::remove (a..b)`. -/
def ropeRemove (r : List Char) (a b : Nat) : List Char :=
  r.take a ++ r.drop b

/-- Rust `str::len`: the UTF-8 byte length of a string, computed from
its chars.  This is what `Editor::insert_str` adds to `cursor_pos`. -/
def byteLen (s : List Char) : Nat := (s.map Char.utf8Size).sum

/-- `editor/mode.rs`: the editor modes. -/
inductive Mode where
  | Normal
  | Insert
  | Visual
deriving Repr, DecidableEq

/-- `editor/cursor_movement.rs`: the cursor movement directions. -/
inductive CursorMovement where
  | Left
  | Right
  | Up
  | Down
  | LineStart
  | LineEnd
deriving Repr, DecidableEq

/-- `editor/buffer.rs`: one open document. -/
structure Buffer where
  content : List Char
  cursor_pos : Nat
  scroll_offset : Nat × Nat
  is_modified : Bool
  selection_start : Option Nat
deriving Repr, DecidableEq

/-- `Buffer::new`. -/
def Buffer.new : Buffer :=
  { content := []
    cursor_pos := 0
    scroll_offset := (0, 0)
    is_modified := false
    selection_start := none }

/-- The `HashMap<PathBuf, Buffer>` of the editor, modelled as an
association list with unique keys; paths are abstracted to `Nat`. -/
abbrev BufMap := List (Nat × Buffer)

/-- `HashMap::get`. -/
def lookupBuf : BufMap → Nat → Option Buffer
  | [], _ => none
  | (k, b) :: rest, k2 => if k = k2 then some b else lookupBuf rest k2

/-- Writing through the mutable reference returned by `HashMap::get_mut`:
replaces the value at `k` when present, otherwise changes nothing. -/
def updateBuf : BufMap → Nat → Buffer → BufMap
  | [], _, _ => []
  | (k, b) :: rest, k2, b2 =>
    if k = k2 then (k, b2) :: rest else (k, b) :: updateBuf rest k2 b2

/-- `HashMap::insert`: replaces the value at `k` or appends the entry. -/
def insertBuf : BufMap → Nat → Buffer → BufMap
  | [], k2, b2 => [(k2, b2)]
  | (k, b) :: rest, k2, b2 =>
    if k = k2 then (k, b2) :: rest else (k, b) :: insertBuf rest k2 b2

/-- `editor/mod.rs`: the `Editor` state (clipboard, debug flag and
starting directory are irrelevant to the claims and omitted). -/
structure Editor where
  mode : Mode
  viewport : Nat × Nat
  buffers : BufMap
  current_buffer : Option Nat
deriving Repr, DecidableEq

/-- `Editor::new` (viewport `(80, 24)`, no buffers). -/
def Editor.new : Editor :=
  { mode := Mode.Normal
    viewport := (80, 24)
    buffers := []
    current_buffer := none }

/-- `Editor::get_current_buffer`. -/
def Editor.get_current_buffer (e : Editor) : Option Buffer :=
  match e.current_buffer with
  | none => none
  | some k => lookupBuf e.buffers k

/-- The effect of mutating through `Editor::get_current_buffer_mut`:
apply `f` to the buffer under the current key when both exist. -/
def Editor.modifyCurrent (e : Editor) (f : Buffer → Buffer) : Editor :=
  match e.current_buffer with
  | none => e
  | some k =>
    match lookupBuf e.buffers k with
    | none => e
    | some b => { e with buffers := updateBuf e.buffers k (f b) }

/-- Checked `usize` subtraction: Rust `a - b`, which panics on
underflow (modelled as `Except.error`). -/
def csub (a b : Nat) : Except String Nat :=
  if b ≤ a then Except.ok (a - b) else Except.error "subtract with overflow"

/-- `Editor::get_cursor_screen_position` on one buffer:
`(char_to_line cursor, cursor - line_to_char line)`; `char_to_line`
panics when the cursor is out of bounds. -/
def cursorScreenPosBuf (b : Buffer) : Except String (Nat × Nat) :=
  if b.cursor_pos ≤ lenChars b.content then
    let line := charToLine b.content b.cursor_pos
    Except.ok (line, b.cursor_pos - lineToChar b.content line)
  else Except.error "char_to_line out of bounds"

/-- `Editor::get_cursor_screen_position`. -/
def Editor.get_cursor_screen_position (e : Editor) :
    Except String (Option (Nat × Nat)) :=
  match e.get_current_buffer with
  | none => Except.ok none
  | some b =>
    match cursorScreenPosBuf b with
    | Except.error msg => Except.error msg
    | Except.ok p => Except.ok (some p)

/-- The vertical block of `Editor::scroll` (padding 6): given viewport
height `h`, cursor line `cl` and the scroll offset, produce the new
scroll offset.  The guard `cl >= scroll_y + h - 6` and the amount
`h - 6 - 1` use plain (panicking) subtraction in the source, hence
`Except`; the assignments use `saturating_sub`. -/
def scrollVert (h cl : Nat) (off : Nat × Nat) : Except String (Nat × Nat) :=
  if cl < off.2 + 6 then
    Except.ok (off.1, cl - 6)
  else
    match csub (off.2 + h) 6 with
    | Except.error msg => Except.error msg
    | Except.ok t =>
      if t ≤ cl then
        match csub h 6 with
        | Except.error msg => Except.error msg
        | Except.ok u =>
          match csub u 1 with
          | Except.error msg => Except.error msg
          | Except.ok v => Except.ok (off.1, cl - v)
      else Except.ok off

/-- The horizontal block of `Editor::scroll` (padding 6): `sx` is the
`scroll_x` value read before the vertical block ran, `off` the offset
produced by the vertical block. -/
def scrollHoriz (w cc sx : Nat) (off : Nat × Nat) : Except String (Nat × Nat) :=
  if cc < sx + 6 then
    Except.ok (cc - 6, off.2)
  else
    match csub (sx + w) 6 with
    | Except.error msg => Except.error msg
    | Except.ok t =>
      if t ≤ cc then
        match csub w 6 with
        | Except.error msg => Except.error msg
        | Except.ok u =>
          match csub u 1 with
          | Except.error msg => Except.error msg
          | Except.ok v => Except.ok (cc - v, off.2)
      else Except.ok off

/-- The body of `Editor::scroll` on the current buffer: `cpos` is the
result of `get_cursor_screen_position`, computed by the caller before
the buffer is borrowed mutably. -/
def scrollBuf (vp : Nat × Nat) (cpos : Option (Nat × Nat)) (b : Buffer) :
    Except String Buffer :=
  if b.cursor_pos ≤ lenChars b.content then
    let cl := charToLine b.content b.cursor_pos
    let sx := b.scroll_offset.1
    match scrollVert vp.2 cl b.scroll_offset with
    | Except.error msg => Except.error msg
    | Except.ok off1 =>
      match cpos with
      | some (_, cc) =>
        match scrollHoriz vp.1 cc sx off1 with
        | Except.error msg => Except.error msg
        | Except.ok off2 => Except.ok { b with scroll_offset := off2 }
      | none => Except.ok { b with scroll_offset := off1 }
  else Except.error "char_to_line out of bounds"

/-- `Editor::scroll`. -/
def Editor.scroll (e : Editor) : Except String Editor :=
  match e.get_cursor_screen_position with
  | Except.error msg => Except.error msg
  | Except.ok cpos =>
    match e.current_buffer with
    | none => Except.ok e
    | some k =>
      match lookupBuf e.buffers k with
      | none => Except.ok e
      | some b =>
        match scrollBuf e.viewport cpos b with
        | Except.error msg => Except.error msg
        | Except.ok b2 => Except.ok { e with buffers := updateBuf e.buffers k b2 }

/-- The buffer update performed by `Editor::insert_str` before the
rescroll: insert `s` at the cursor and advance `cursor_pos` by
`s.len()`, which in Rust is the UTF-8 BYTE length of `s`. -/
def insertStrBuf (s : List Char) (b : Buffer) : Buffer :=
  { b with
    content := ropeInsert b.content b.cursor_pos s
    cursor_pos := b.cursor_pos + byteLen s
    is_modified := true }

/-- `Editor::insert_str`. -/
def Editor.insert_str (e : Editor) (s : List Char) : Except String Editor :=
  match e.get_current_buffer with
  | none => Except.ok e
  | some _ => (e.modifyCurrent (insertStrBuf s)).scroll

/-- The buffer update performed by `Editor::insert`. -/
def insertCharBuf (c : Char) (b : Buffer) : Buffer :=
  { b with
    content := ropeInsert b.content b.cursor_pos [c]
    cursor_pos := b.cursor_pos + 1
    is_modified := true }

/-- `Editor::insert`. -/
def Editor.insert (e : Editor) (c : Char) : Except String Editor :=
  match e.get_current_buffer with
  | none => Except.ok e
  | some _ => (e.modifyCurrent (insertCharBuf c)).scroll

/-- `Editor::insert_new_line`. -/
def Editor.insert_new_line (e : Editor) : Except String Editor :=
  match e.get_current_buffer with
  | none => Except.ok e
  | some _ => (e.modifyCurrent (insertCharBuf '\n')).scroll

/-- `Editor::delete` (backward delete). -/
def Editor.delete (e : Editor) : Except String Editor :=
  match e.get_current_buffer with
  | none => Except.ok e
  | some b =>
    if 0 < b.cursor_pos then
      (e.modifyCurrent (fun b2 =>
        { b2 with
          content := ropeRemove b2.content (b2.cursor_pos - 1) b2.cursor_pos
          cursor_pos := b2.cursor_pos - 1
          is_modified := true })).scroll
    else Except.ok e

/-- The buffer update performed by `Editor::delete_selection` when a
selection anchor is present. -/
def deleteSelectionBuf (b : Buffer) : Buffer :=
  match b.selection_start with
  | none => b
  | some sel =>
    { b with
      content := ropeRemove b.content (min sel b.cursor_pos) (max sel b.cursor_pos)
      cursor_pos := min sel b.cursor_pos
      is_modified := true
      selection_start := none }

/-- `Editor::delete_selection`: mutates the current buffer when it has
an anchor, then unconditionally sets Normal mode.  (No rescroll in the
source.) -/
def Editor.delete_selection (e : Editor) : Editor :=
  { e.modifyCurrent deleteSelectionBuf with mode := Mode.Normal }

/-- `Editor::move_cursor_left`. -/
def move_cursor_left (b : Buffer) : Buffer :=
  if 0 < b.cursor_pos then { b with cursor_pos := b.cursor_pos - 1 } else b

/-- `Editor::move_cursor_right`. -/
def move_cursor_right (b : Buffer) : Buffer :=
  if b.cursor_pos < lenChars b.content then
    { b with cursor_pos := b.cursor_pos + 1 }
  else b

/-- `Editor::move_cursor_up`: `checked_sub 1` on the current line is the
match on `charToLine`; the target column is clamped with the ropey line
length, which includes the trailing newline. -/
def move_cursor_up (b : Buffer) : Buffer :=
  match charToLine b.content b.cursor_pos with
  | 0 => b
  | prev_line + 1 =>
    let cur_line_start := lineToChar b.content (prev_line + 1)
    let prev_line_start := lineToChar b.content prev_line
    let cur_col := b.cursor_pos - cur_line_start
    let prev_line_len := lenChars (ropeLine b.content prev_line)
    { b with cursor_pos := prev_line_start + min cur_col prev_line_len }

/-- `Editor::move_cursor_down`. -/
def move_cursor_down (b : Buffer) : Buffer :=
  let next_line := charToLine b.content b.cursor_pos + 1
  if next_line < lenLines b.content then
    let cur_line_start := lineToChar b.content (charToLine b.content b.cursor_pos)
    let next_line_start := lineToChar b.content next_line
    let cur_col := b.cursor_pos - cur_line_start
    let next_line_len := lenChars (ropeLine b.content next_line)
    { b with cursor_pos := next_line_start + min cur_col next_line_len }
  else b

/-- `Editor::move_cursor_line_start`. -/
def move_cursor_line_start (b : Buffer) : Buffer :=
  { b with cursor_pos := lineToChar b.content (charToLine b.content b.cursor_pos) }

/-- `Editor::move_cursor_line_end`: `line_to_char (line + 1)` minus one,
saturating. -/
def move_cursor_line_end (b : Buffer) : Buffer :=
  { b with
    cursor_pos := lineToChar b.content (charToLine b.content b.cursor_pos + 1) - 1 }

/-- The dispatch table inside `Editor::move_cursor`. -/
def moveFn : CursorMovement → Buffer → Buffer
  | CursorMovement.Left => move_cursor_left
  | CursorMovement.Right => move_cursor_right
  | CursorMovement.Up => move_cursor_up
  | CursorMovement.Down => move_cursor_down
  | CursorMovement.LineStart => move_cursor_line_start
  | CursorMovement.LineEnd => move_cursor_line_end

/-- `Editor::move_cursor`. -/
def Editor.move_cursor (e : Editor) (d : CursorMovement) : Except String Editor :=
  match e.get_current_buffer with
  | none => Except.ok e
  | some _ => (e.modifyCurrent (moveFn d)).scroll

/-- `Editor::save_file` at its successful-write case: clears
`is_modified` on the current buffer, then reassigns `current_buffer`
to `path` when it differs — WITHOUT re-keying the `buffers` map.
Errors with the source's message when there is no current buffer. -/
def Editor.save_file (e : Editor) (path : Nat) : Except String Editor :=
  match e.get_current_buffer with
  | none => Except.error "No active buffer to save"
  | some _ =>
    let e2 := e.modifyCurrent (fun b => { b with is_modified := false })
    if e2.current_buffer = some path then Except.ok e2
    else Except.ok { e2 with current_buffer := some path }

/-- `Editor::new_scratch_buffer` at its successful case: `path` stands
for the generated `scratch_<uuid>.txt` key. -/
def Editor.new_scratch_buffer (e : Editor) (path : Nat) : Editor :=
  { e with
    buffers := insertBuf e.buffers path Buffer.new
    current_buffer := some path }

/-- `Editor::open_file` at its successful-read case: `content` is the
file's (valid UTF-8) content, `path` the resolved path.  Note the
source initialises `selection_start` to `Some 0`. -/
def Editor.open_file (e : Editor) (path : Nat) (content : List Char) : Editor :=
  { e with
    buffers := insertBuf e.buffers path
      { content := content
        cursor_pos := 0
        scroll_offset := (0, 0)
        is_modified := false
        selection_start := some 0 }
    current_buffer := some path }

/-- Rust `str::trim_end` on a char list. -/
def trimEnd (s : List Char) : List Char :=
  (s.reverse.dropWhile Char.isWhitespace).reverse

/-- The per-line closure of `Editor::get_visible_content`: the text
emitted for line `line_idx`, given the viewport width, `scroll_x` and
the cursor line. -/
def visibleLine (viewport_width scroll_x cursor_line : Nat)
    (content : List Char) (line_idx : Nat) : List Char :=
  let line := ropeLine content line_idx
  let line_length := lenChars line
  let visible_start := min scroll_x (line_length - 1)
  let visible_end := min (scroll_x + viewport_width) line_length
  let visible_line := (line.drop visible_start).take viewport_width
  let has_newline := (line.drop visible_end).any isNl
  if line_idx = cursor_line then
    if has_newline then visible_line ++ ['\n'] else visible_line
  else if line_length - 1 ≤ scroll_x then ['\n']
  else if has_newline then visible_line ++ ['\n']
  else trimEnd visible_line ++ ['\n']

/-- `Editor::get_visible_content`. -/
def Editor.get_visible_content (e : Editor) : Option (List Char) :=
  e.get_current_buffer.map (fun b =>
    let scroll_x := b.scroll_offset.1
    let scroll_y := b.scroll_offset.2
    let max_line_idx := min (lenLines b.content) (scroll_y + e.viewport.2)
    (((List.range' scroll_y (max_line_idx - scroll_y)).map
      (visibleLine e.viewport.1 scroll_x
        (charToLine b.content b.cursor_pos) b.content)).flatten))

/-- `Editor::get_scroll_offset`. -/
def Editor.get_scroll_offset (e : Editor) : Option (Nat × Nat) :=
  (e.get_current_buffer).map (fun b => b.scroll_offset)

/-- An editor holding a single empty buffer under key 0. -/
def exEd1 : Editor :=
  { mode := Mode.Normal
    viewport := (80, 24)
    buffers := [(0, Buffer.new)]
    current_buffer := some 0 }

/-- The state `exEd1` reaches after `save_file 1`: `current_buffer`
reassigned to key 1 while the map still holds only key 0. -/
def exEd1saved : Editor :=
  { mode := Mode.Normal
    viewport := (80, 24)
    buffers := [(0, Buffer.new)]
    current_buffer := some 1 }

/-- A buffer of eleven lines with the cursor on line 10. -/
def exB2 : Buffer :=
  { content := List.replicate 10 '\n'
    cursor_pos := 10
    scroll_offset := (0, 0)
    is_modified := false
    selection_start := none }

/-- `exB2` in a viewport of height 5, shorter than the padding of 6. -/
def exEd2 : Editor :=
  { mode := Mode.Normal
    viewport := (80, 5)
    buffers := [(0, exB2)]
    current_buffer := some 0 }

/-- A buffer of 21 lines, cursor on line 10, scrolled to line 20. -/
def exB4 : Buffer :=
  { content := List.replicate 20 '\n'
    cursor_pos := 10
    scroll_offset := (0, 20)
    is_modified := false
    selection_start := none }

/-- `exB4` in a viewport of height 12. -/
def exEd4 : Editor :=
  { mode := Mode.Normal
    viewport := (80, 12)
    buffers := [(0, exB4)]
    current_buffer := some 0 }

/-- `exEd4` after one `scroll`: offset `(0, 4)`. -/
def exEd4a : Editor :=
  { exEd4 with buffers := [(0, { exB4 with scroll_offset := (0, 4) })] }

/-- `exEd4a` after another `scroll`: offset `(0, 5)`. -/
def exEd4b : Editor :=
  { exEd4 with buffers := [(0, { exB4 with scroll_offset := (0, 5) })] }

/-- The document "a\ncd" with the cursor at its end (line 1, column 2). -/
def exB5 : Buffer :=
  { content := ['a', '\n', 'c', 'd']
    cursor_pos := 4
    scroll_offset := (0, 0)
    is_modified := false
    selection_start := none }

/-- The spec's scenario document "abc\ndef\nghi" with the cursor at
offset 5. -/
def exB5s : Buffer :=
  { content := ['a', 'b', 'c', '\n', 'd', 'e', 'f', '\n', 'g', 'h', 'i']
    cursor_pos := 5
    scroll_offset := (0, 0)
    is_modified := false
    selection_start := none }

/-- The single-line document "abc" with the cursor at offset 0. -/
def exB6 : Buffer :=
  { content := ['a', 'b', 'c']
    cursor_pos := 0
    scroll_offset := (0, 0)
    is_modified := false
    selection_start := none }

/-- C1: the cursor-bounds invariant is broken by `insert_str` on
multi-byte input.  Inserting "é" (one char, two UTF-8 bytes) into an
empty document advances `cursor_pos` by the byte length 2 while the
content has 1 char, so `cursor_pos > len_chars`; the rescroll then
calls `char_to_line` out of bounds, which panics in ropey.  The spec's
invariant `0 <= cursor_pos <= content.length_in_chars()` is the
intent (§4.2: advance "by s's length in the same unit as cursor_pos");
the byte-length advance is a slip in the code. -/
theorem insert_str_byte_advance_bug :
    (insertStrBuf ['é'] Buffer.new).cursor_pos = 2 ∧
    lenChars (insertStrBuf ['é'] Buffer.new).content = 1 ∧
    Editor.insert_str exEd1 ['é'] = Except.error "char_to_line out of bounds" := by
  refine ⟨rfl, rfl, ?_⟩
  rfl

/-- C2: the scroll recomputation is NOT panic-free when the vertical
padding 6 exceeds the viewport height: with viewport height 5, cursor
on line 10 and scroll offset (0, 0) the guard computes
`scroll_y + viewport_height - VERTICAL_PADDING = 5 - 6` with plain
`usize` subtraction, which underflows (panics in debug builds) instead
of saturating and clamping `scroll_y` to 0 as the spec requires. -/
theorem scroll_underflow_bug :
    Editor.scroll exEd2 = Except.error "subtract with overflow" := by
  rfl

/-- C3: a successful `save_file` to a path different from the key the
current document was stored under reassigns `current_buffer` to the
new path WITHOUT re-keying the `buffers` map, so the current key no
longer names any entry and the current document is no longer
retrievable — the claimed invariant is broken by the code. -/
theorem save_rename_dangling_key_bug :
    Editor.save_file exEd1 1 = Except.ok exEd1saved ∧
    exEd1saved.current_buffer = some 1 ∧
    lookupBuf exEd1saved.buffers 1 = none ∧
    exEd1saved.get_current_buffer = none := by
  refine ⟨?_, rfl, rfl, rfl⟩
  rfl

/-- C7: a successful `open_file` loads the content verbatim with the
cursor at 0, but initialises the selection anchor to `Some 0` — not
`None` — while the mode stays Normal, contradicting the spec's
invariant that the anchor is `None` outside Visual mode. -/
theorem open_file_selection_anchor_bug :
    (Editor.open_file Editor.new 0 ['h', 'i']).get_current_buffer =
      some { content := ['h', 'i']
             cursor_pos := 0
             scroll_offset := (0, 0)
             is_modified := false
             selection_start := some 0 } ∧
    (Editor.open_file Editor.new 0 ['h', 'i']).mode = Mode.Normal ∧
    ((Editor.open_file Editor.new 0 ['h', 'i']).get_current_buffer).map
      Buffer.selection_start = some (some 0) := by
  exact ⟨rfl, rfl, rfl⟩

/-- C4 counterexample: with viewport height 12 the scroll recomputation
is not idempotent.  From offset (0, 20) with the cursor on line 10 the
first call yields scroll offset (0, 4) (top-margin rule), and the
second call — with no intervening mutation — moves it again to (0, 5)
(bottom-margin rule), because height 12 leaves the two margin bands
overlapping. -/
theorem scroll_not_idempotent_cex :
    Editor.scroll exEd4 = Except.ok exEd4a ∧
    Editor.scroll exEd4a = Except.ok exEd4b ∧
    exEd4a.get_scroll_offset = some (0, 4) ∧
    exEd4b.get_scroll_offset = some (0, 5) := by
  refine ⟨?_, ?_, rfl, rfl⟩ <;> rfl

/-- C5 counterexample: in "a\ncd" with the cursor at offset 4 (line 1,
column 2), `move_up` clamps the column with the ropey line length of
line 0 — which counts the newline, giving 2 — and lands at offset 2,
which is still on line 1 (the start of the line the cursor came from),
crossing past the target line's content. -/
theorem move_up_crosses_line_cex :
    charToLine exB5.content exB5.cursor_pos = 1 ∧
    (move_cursor_up exB5).cursor_pos = 2 ∧
    charToLine exB5.content (move_cursor_up exB5).cursor_pos = 1 := by
  exact ⟨rfl, rfl, rfl⟩

/-- C6 counterexample: in the single-line document "abc" (no
terminating newline), `move_line_end` puts the cursor at offset 2 =
`len_chars - 1`, not at the document end 3 that the claim requires. -/
theorem line_end_not_document_end_cex :
    charToLine exB6.content exB6.cursor_pos + 1 = lenLines exB6.content ∧
    (move_cursor_line_end exB6).cursor_pos = 2 ∧
    lenChars exB6.content = 3 := by
  exact ⟨rfl, rfl, rfl⟩

/-- C8 counterexample: invoking `insert` with no current document
returns successfully with the editor unchanged — a silent no-op, not
the claimed reported NoActiveBuffer-style error. -/
theorem no_buffer_insert_silent_cex :
    Editor.insert Editor.new 'a' = Except.ok Editor.new := by
  rfl

lemma csub_ok {a b : Nat} (hba : b ≤ a) : csub a b = Except.ok (a - b) := by
  simp [csub, hba]

lemma lookupBuf_updateBuf_self {bs : BufMap} {k : Nat} {b : Buffer}
    (h : lookupBuf bs k = some b) (b2 : Buffer) :
    lookupBuf (updateBuf bs k b2) k = some b2 := by
  induction bs with
  | nil => simp [lookupBuf] at h
  | cons hd tl ih =>
    obtain ⟨k1, b1⟩ := hd
    by_cases hk : k1 = k
    · subst hk
      simp [lookupBuf, updateBuf]
    · simp [lookupBuf, updateBuf, hk] at h ⊢
      exact ih h

lemma updateBuf_of_lookup_eq {bs : BufMap} {k : Nat} {b : Buffer}
    (h : lookupBuf bs k = some b) : updateBuf bs k b = bs := by
  induction bs with
  | nil => simp [lookupBuf] at h
  | cons hd tl ih =>
    obtain ⟨k1, b1⟩ := hd
    by_cases hk : k1 = k
    · subst hk
      simp [lookupBuf] at h
      simp [updateBuf, h]
    · simp [lookupBuf, hk] at h
      simp [updateBuf, hk, ih h]

lemma lookupBuf_updateBuf_ne {bs : BufMap} {k k2 : Nat} (hk : k ≠ k2)
    (b : Buffer) : lookupBuf (updateBuf bs k b) k2 = lookupBuf bs k2 := by
  induction bs with
  | nil => simp [updateBuf]
  | cons hd tl ih =>
    obtain ⟨k1, b1⟩ := hd
    by_cases h1 : k1 = k
    · subst h1
      simp [updateBuf, lookupBuf, hk]
    · simp [updateBuf, lookupBuf, h1, ih]

/-- The common shape of the vertical and horizontal margin rules of
`Editor::scroll`, written with Nat (saturating) subtraction; it equals
the source's behaviour whenever the dimension `d` is at least 13. -/
def padAdjust (d pos s : Nat) : Nat :=
  if pos < s + 6 then pos - 6
  else if s + d - 6 ≤ pos then pos - (d - 6 - 1)
  else s

lemma padAdjust_idem {d : Nat} (hd : 13 ≤ d) (pos s : Nat) :
    padAdjust d pos (padAdjust d pos s) = padAdjust d pos s := by
  unfold padAdjust
  split_ifs <;> omega

lemma scrollVert_ok {d : Nat} (cl : Nat) (off : Nat × Nat) (hd : 13 ≤ d) :
    scrollVert d cl off = Except.ok (off.1, padAdjust d cl off.2) := by
  simp only [scrollVert, padAdjust, csub_ok (show 6 ≤ off.2 + d by omega),
    csub_ok (show 6 ≤ d by omega), csub_ok (show 1 ≤ d - 6 by omega)]
  split_ifs <;> rfl

lemma scrollHoriz_ok {w : Nat} (cc sx : Nat) (off : Nat × Nat) (hw : 13 ≤ w)
    (hx : off.1 = sx) :
    scrollHoriz w cc sx off = Except.ok (padAdjust w cc sx, off.2) := by
  simp only [scrollHoriz, padAdjust, csub_ok (show 6 ≤ sx + w by omega),
    csub_ok (show 6 ≤ w by omega), csub_ok (show 1 ≤ w - 6 by omega)]
  split_ifs <;> simp [← hx]

lemma scrollBuf_ok {vp : Nat × Nat} (l cc : Nat) (b : Buffer)
    (hw : 13 ≤ vp.1) (hh : 13 ≤ vp.2)
    (hcur : b.cursor_pos ≤ lenChars b.content) :
    scrollBuf vp (some (l, cc)) b =
      Except.ok { b with scroll_offset :=
        (padAdjust vp.1 cc b.scroll_offset.1,
         padAdjust vp.2 (charToLine b.content b.cursor_pos) b.scroll_offset.2) } := by
  simp only [scrollBuf, if_pos hcur,
    scrollVert_ok (charToLine b.content b.cursor_pos) b.scroll_offset hh]
  rw [scrollHoriz_ok cc b.scroll_offset.1
    (b.scroll_offset.1, padAdjust vp.2 (charToLine b.content b.cursor_pos)
      b.scroll_offset.2) hw rfl]

/-- The value `Editor::scroll` stores for the current buffer when both
viewport dimensions are at least 13: both margin rules reduce to
`padAdjust`. -/
def scrolledBuf (vp : Nat × Nat) (b : Buffer) : Buffer :=
  { b with scroll_offset :=
      (padAdjust vp.1
        (b.cursor_pos - lineToChar b.content (charToLine b.content b.cursor_pos))
        b.scroll_offset.1,
       padAdjust vp.2 (charToLine b.content b.cursor_pos) b.scroll_offset.2) }

lemma scrolledBuf_idem {vp : Nat × Nat} (hw : 13 ≤ vp.1) (hh : 13 ≤ vp.2)
    (b : Buffer) : scrolledBuf vp (scrolledBuf vp b) = scrolledBuf vp b := by
  simp only [scrolledBuf]
  rw [padAdjust_idem hw, padAdjust_idem hh]

lemma scroll_ok_of_current {e : Editor} {k : Nat} {b : Buffer}
    (hcb : e.current_buffer = some k) (hlk : lookupBuf e.buffers k = some b)
    (hcur : b.cursor_pos ≤ lenChars b.content)
    (hw : 13 ≤ e.viewport.1) (hh : 13 ≤ e.viewport.2) :
    e.scroll = Except.ok
      { e with buffers := updateBuf e.buffers k (scrolledBuf e.viewport b) } := by
  have hgc : e.get_current_buffer = some b := by
    simp [Editor.get_current_buffer, hcb, hlk]
  have hcsp : cursorScreenPosBuf b = Except.ok
      (charToLine b.content b.cursor_pos,
       b.cursor_pos - lineToChar b.content (charToLine b.content b.cursor_pos)) := by
    simp [cursorScreenPosBuf, hcur]
  simp only [Editor.scroll, Editor.get_cursor_screen_position, hgc, hcsp, hcb, hlk,
    scrolledBuf,
    scrollBuf_ok (charToLine b.content b.cursor_pos)
      (b.cursor_pos - lineToChar b.content (charToLine b.content b.cursor_pos))
      b hw hh hcur]

lemma scroll_of_no_current {e : Editor}
    (hgc : e.get_current_buffer = none) : e.scroll = Except.ok e := by
  cases hcb : e.current_buffer with
  | none =>
    simp [Editor.scroll, Editor.get_cursor_screen_position, hgc, hcb]
  | some k =>
    have hlk : lookupBuf e.buffers k = none := by
      simpa [Editor.get_current_buffer, hcb] using hgc
    simp [Editor.scroll, Editor.get_cursor_screen_position, hgc, hcb, hlk]

/-- C4 (amended): the scroll recomputation is idempotent whenever both
viewport dimensions are at least 13 (strictly more than twice the
padding of 6) and the first call returned normally: the second call
returns the same state unchanged.  (For smaller viewports the two
margin bands overlap and the offset oscillates — see the
counterexample at height 12 — or the margin arithmetic underflows.) -/
theorem scroll_idempotent_amended (e e2 : Editor) (hw : 13 ≤ e.viewport.1)
    (hh : 13 ≤ e.viewport.2) (h : e.scroll = Except.ok e2) :
    e2.scroll = Except.ok e2 := by
  cases hcb : e.current_buffer with
  | none =>
    have hgc : e.get_current_buffer = none := by
      simp [Editor.get_current_buffer, hcb]
    rw [scroll_of_no_current hgc] at h
    injection h with h
    subst h
    exact scroll_of_no_current hgc
  | some k =>
    cases hlk : lookupBuf e.buffers k with
    | none =>
      have hgc : e.get_current_buffer = none := by
        simp [Editor.get_current_buffer, hcb, hlk]
      rw [scroll_of_no_current hgc] at h
      injection h with h
      subst h
      exact scroll_of_no_current hgc
    | some b =>
      by_cases hcur : b.cursor_pos ≤ lenChars b.content
      · rw [scroll_ok_of_current hcb hlk hcur hw hh] at h
        injection h with h
        subst h
        have h2 := scroll_ok_of_current
          (e := { e with buffers := updateBuf e.buffers k (scrolledBuf e.viewport b) })
          (k := k) (b := scrolledBuf e.viewport b)
          hcb (lookupBuf_updateBuf_self hlk _) hcur hw hh
        rw [h2, scrolledBuf_idem hw hh,
          updateBuf_of_lookup_eq (lookupBuf_updateBuf_self hlk _)]
      · exfalso
        have hgc : e.get_current_buffer = some b := by
          simp [Editor.get_current_buffer, hcb, hlk]
        have hcsp : cursorScreenPosBuf b =
            Except.error "char_to_line out of bounds" := by
          simp [cursorScreenPosBuf, hcur]
        simp [Editor.scroll, Editor.get_cursor_screen_position, hgc, hcsp] at h

/-- `exB4` in a properly tall viewport (80 × 24), scrolled to
line 20. -/
def exEdW0 : Editor :=
  { mode := Mode.Normal
    viewport := (80, 24)
    buffers := [(0, exB4)]
    current_buffer := some 0 }

/-- `exEdW0` after one `scroll`: offset `(0, 4)`, a fixpoint. -/
def exEdW1 : Editor :=
  { exEdW0 with buffers := [(0, { exB4 with scroll_offset := (0, 4) })] }

/-- Witness for the amended C4 theorem: at viewport (80, 24) the state
reached by one scroll call is a fixpoint of scroll. -/
theorem scroll_idempotent_amended_witness :
    Editor.scroll exEdW1 = Except.ok exEdW1 :=
  scroll_idempotent_amended exEdW0 exEdW1 (by decide) (by decide) (by rfl)

lemma modifyCurrent_of_none {e : Editor} (h : e.get_current_buffer = none)
    (f : Buffer → Buffer) : e.modifyCurrent f = e := by
  cases hcb : e.current_buffer with
  | none => simp [Editor.modifyCurrent, hcb]
  | some k =>
    have hlk : lookupBuf e.buffers k = none := by
      simpa [Editor.get_current_buffer, hcb] using h
    simp [Editor.modifyCurrent, hcb, hlk]

/-- C8 (amended): when no current document exists, only `save_file`
reports a NoActiveBuffer-style error; the other mutation entry points
(`insert`, `insert_str`, `insert_new_line`, `delete`,
`delete_selection`, `move_cursor`) return successfully with the editor
untouched (except that `delete_selection` still forces Normal mode) —
silent no-ops rather than reported errors. -/
theorem no_buffer_ops_amended (e : Editor) (c : Char) (s : List Char)
    (d : CursorMovement) (p : Nat) (h : e.get_current_buffer = none) :
    e.insert c = Except.ok e ∧
    e.insert_str s = Except.ok e ∧
    e.insert_new_line = Except.ok e ∧
    e.delete = Except.ok e ∧
    e.delete_selection = { e with mode := Mode.Normal } ∧
    e.move_cursor d = Except.ok e ∧
    e.save_file p = Except.error "No active buffer to save" := by
  refine ⟨?_, ?_, ?_, ?_, ?_, ?_, ?_⟩
  · simp [Editor.insert, h]
  · simp [Editor.insert_str, h]
  · simp [Editor.insert_new_line, h]
  · simp [Editor.delete, h]
  · simp [Editor.delete_selection, modifyCurrent_of_none h]
  · simp [Editor.move_cursor, h]
  · simp [Editor.save_file, h]

/-- Witness for the amended C8 theorem at the freshly created editor,
which has no buffers. -/
theorem no_buffer_ops_amended_witness :
    Editor.new.insert 'a' = Except.ok Editor.new ∧
    Editor.new.insert_str ['h', 'i'] = Except.ok Editor.new ∧
    Editor.new.insert_new_line = Except.ok Editor.new ∧
    Editor.new.delete = Except.ok Editor.new ∧
    Editor.new.delete_selection = { Editor.new with mode := Mode.Normal } ∧
    Editor.new.move_cursor CursorMovement.Left = Except.ok Editor.new ∧
    Editor.new.save_file 3 = Except.error "No active buffer to save" :=
  no_buffer_ops_amended Editor.new 'a' ['h', 'i'] CursorMovement.Left 3 rfl

lemma modifyCurrent_current (e : Editor) (f : Buffer → Buffer) :
    (e.modifyCurrent f).current_buffer = e.current_buffer := by
  cases hcb : e.current_buffer with
  | none => simp [Editor.modifyCurrent, hcb]
  | some k =>
    cases hlk : lookupBuf e.buffers k with
    | none => simp [Editor.modifyCurrent, hcb, hlk]
    | some b => simp [Editor.modifyCurrent, hcb, hlk]

lemma modifyCurrent_lookup_ne {e : Editor} {k : Nat}
    (hk : e.current_buffer ≠ some k) (f : Buffer → Buffer) :
    lookupBuf (e.modifyCurrent f).buffers k = lookupBuf e.buffers k := by
  cases hcb : e.current_buffer with
  | none => simp [Editor.modifyCurrent, hcb]
  | some k2 =>
    have hne : k2 ≠ k := by
      intro he
      exact hk (by rw [hcb, he])
    cases hlk : lookupBuf e.buffers k2 with
    | none => simp [Editor.modifyCurrent, hcb, hlk]
    | some b =>
      simp only [Editor.modifyCurrent, hcb, hlk]
      exact lookupBuf_updateBuf_ne hne (f b)

lemma scroll_lookup_ne {e : Editor} {k : Nat} (hk : e.current_buffer ≠ some k)
    {x : Editor} (h : e.scroll = Except.ok x) :
    lookupBuf x.buffers k = lookupBuf e.buffers k := by
  cases hcp : e.get_cursor_screen_position with
  | error msg => simp [Editor.scroll, hcp] at h
  | ok cpos =>
    cases hcb : e.current_buffer with
    | none =>
      simp only [Editor.scroll, hcp, hcb] at h
      injection h with h
      subst h
      rfl
    | some k2 =>
      have hne : k2 ≠ k := by
        intro he
        exact hk (by rw [hcb, he])
      cases hlk : lookupBuf e.buffers k2 with
      | none =>
        simp only [Editor.scroll, hcp, hcb, hlk] at h
        injection h with h
        subst h
        rfl
      | some b =>
        cases hsb : scrollBuf e.viewport cpos b with
        | error msg => simp [Editor.scroll, hcp, hcb, hlk, hsb] at h
        | ok b2 =>
          simp only [Editor.scroll, hcp, hcb, hlk, hsb] at h
          injection h with h
          subst h
          exact lookupBuf_updateBuf_ne hne b2

lemma modifyScroll_lookup_ne {e : Editor} {k : Nat} (f : Buffer → Buffer)
    (hk : e.current_buffer ≠ some k) {x : Editor}
    (h : (e.modifyCurrent f).scroll = Except.ok x) :
    lookupBuf x.buffers k = lookupBuf e.buffers k := by
  rw [scroll_lookup_ne (by rw [modifyCurrent_current]; exact hk) h]
  exact modifyCurrent_lookup_ne hk f

/-- C10: every mutation entry point touches at most the current
document — for any key other than the current one, the stored buffer
(all five fields) is unchanged by `insert`, `insert_str`,
`insert_new_line`, `delete`, `delete_selection` and `move_cursor`. -/
theorem mutations_touch_only_current (e : Editor) (k : Nat) (c : Char)
    (s : List Char) (d : CursorMovement) (hk : e.current_buffer ≠ some k) :
    (∀ x, e.insert c = Except.ok x →
      lookupBuf x.buffers k = lookupBuf e.buffers k) ∧
    (∀ x, e.insert_str s = Except.ok x →
      lookupBuf x.buffers k = lookupBuf e.buffers k) ∧
    (∀ x, e.insert_new_line = Except.ok x →
      lookupBuf x.buffers k = lookupBuf e.buffers k) ∧
    (∀ x, e.delete = Except.ok x →
      lookupBuf x.buffers k = lookupBuf e.buffers k) ∧
    lookupBuf (e.delete_selection).buffers k = lookupBuf e.buffers k ∧
    (∀ x, e.move_cursor d = Except.ok x →
      lookupBuf x.buffers k = lookupBuf e.buffers k) := by
  refine ⟨?_, ?_, ?_, ?_, ?_, ?_⟩
  · intro x hx
    cases hgc : e.get_current_buffer with
    | none =>
      simp only [Editor.insert, hgc] at hx
      injection hx with hx
      subst hx
      rfl
    | some b =>
      simp only [Editor.insert, hgc] at hx
      exact modifyScroll_lookup_ne _ hk hx
  · intro x hx
    cases hgc : e.get_current_buffer with
    | none =>
      simp only [Editor.insert_str, hgc] at hx
      injection hx with hx
      subst hx
      rfl
    | some b =>
      simp only [Editor.insert_str, hgc] at hx
      exact modifyScroll_lookup_ne _ hk hx
  · intro x hx
    cases hgc : e.get_current_buffer with
    | none =>
      simp only [Editor.insert_new_line, hgc] at hx
      injection hx with hx
      subst hx
      rfl
    | some b =>
      simp only [Editor.insert_new_line, hgc] at hx
      exact modifyScroll_lookup_ne _ hk hx
  · intro x hx
    cases hgc : e.get_current_buffer with
    | none =>
      simp only [Editor.delete, hgc] at hx
      injection hx with hx
      subst hx
      rfl
    | some b =>
      simp only [Editor.delete, hgc] at hx
      by_cases hc : 0 < b.cursor_pos
      · rw [if_pos hc] at hx
        exact modifyScroll_lookup_ne _ hk hx
      · rw [if_neg hc] at hx
        injection hx with hx
        subst hx
        rfl
  · simp only [Editor.delete_selection]
    exact modifyCurrent_lookup_ne hk deleteSelectionBuf
  · intro x hx
    cases hgc : e.get_current_buffer with
    | none =>
      simp only [Editor.move_cursor, hgc] at hx
      injection hx with hx
      subst hx
      rfl
    | some b =>
      simp only [Editor.move_cursor, hgc] at hx
      exact modifyScroll_lookup_ne _ hk hx

/-- An editor holding two buffers; the current one is key 0, and key 1
holds the document "xy" with its own cursor and flags. -/
def exEd10 : Editor :=
  { mode := Mode.Normal
    viewport := (80, 24)
    buffers := [(0, Buffer.new),
                (1, { content := ['x', 'y']
                      cursor_pos := 1
                      scroll_offset := (0, 0)
                      is_modified := true
                      selection_start := none })]
    current_buffer := some 0 }

/-- Witness for the C10 theorem: inserting a character into the
current buffer of `exEd10` leaves the buffer stored under key 1
untouched. -/
theorem mutations_touch_only_current_witness :
    lookupBuf
      { mode := Mode.Normal
        viewport := (80, 24)
        buffers := [(0, { content := ['a']
                          cursor_pos := 1
                          scroll_offset := (0, 0)
                          is_modified := true
                          selection_start := none }),
                    (1, { content := ['x', 'y']
                          cursor_pos := 1
                          scroll_offset := (0, 0)
                          is_modified := true
                          selection_start := none })]
        current_buffer := some 0 : Editor }.buffers 1 =
      lookupBuf exEd10.buffers 1 :=
  (mutations_touch_only_current exEd10 1 'a' [] CursorMovement.Left
    (by decide)).1 _ (by rfl)

lemma lineToChar_mono (r : List Char) (l : Nat) :
    lineToChar r l ≤ lineToChar r (l + 1) := by
  induction r generalizing l with
  | nil => cases l <;> simp [lineToChar]
  | cons c cs ih =>
    cases l with
    | zero => simp [lineToChar]
    | succ m =>
      simp only [lineToChar]
      split_ifs <;> exact Nat.add_le_add_left (ih _) 1

lemma lineToChar_le_length (r : List Char) (l : Nat) :
    lineToChar r l ≤ r.length := by
  induction r generalizing l with
  | nil => cases l <;> simp [lineToChar]
  | cons c cs ih =>
    cases l with
    | zero => simp [lineToChar]
    | succ m =>
      simp only [lineToChar, List.length_cons]
      split_ifs <;> exact Nat.add_le_add_left (ih _) 1 |>.trans (by omega)

lemma length_ropeLine (r : List Char) (l : Nat) :
    lenChars (ropeLine r l) = lineToChar r (l + 1) - lineToChar r l := by
  simp only [ropeLine, lenChars, List.length_drop, List.length_take]
  rw [Nat.min_eq_left (lineToChar_le_length r (l + 1))]

lemma lineToChar_of_lenLines_le (r : List Char) :
    ∀ l, lenLines r ≤ l → lineToChar r l = r.length := by
  induction r with
  | nil =>
    intro l _
    cases l <;> rfl
  | cons c cs ih =>
    intro l hl
    have hll : 1 ≤ lenLines (c :: cs) := Nat.le_add_left 1 _
    obtain ⟨m, rfl⟩ : ∃ m, l = m + 1 := ⟨l - 1, by omega⟩
    simp only [lineToChar, List.length_cons]
    by_cases hc : isNl c
    · rw [if_pos hc]
      have hstep : lenLines (c :: cs) = lenLines cs + 1 := by
        simp [lenLines, List.countP_cons, hc]
      rw [ih m (by omega)]
      omega
    · rw [if_neg hc]
      have hstep : lenLines (c :: cs) = lenLines cs := by
        simp [lenLines, List.countP_cons, hc]
      rw [ih (m + 1) (by omega)]
      omega

lemma lineToChar_lenLines (r : List Char) :
    lineToChar r (lenLines r) = r.length :=
  lineToChar_of_lenLines_le r (lenLines r) (Nat.le_refl _)

lemma one_le_lineToChar {cs : List Char} (m : Nat) (h : cs ≠ []) :
    1 ≤ lineToChar cs (m + 1) := by
  cases cs with
  | nil => exact absurd rfl h
  | cons c cs2 =>
    simp only [lineToChar]
    split_ifs <;> omega

lemma newline_before_line_start (r : List Char) (l : Nat) (h1 : 1 ≤ l)
    (h2 : l < lenLines r) : r.get? (lineToChar r l - 1) = some '\n' := by
  induction r generalizing l with
  | nil =>
    simp [lenLines] at h2
    omega
  | cons c cs ih =>
    obtain ⟨m, rfl⟩ : ∃ m, l = m + 1 := ⟨l - 1, by omega⟩
    by_cases hc : isNl c
    · have hcnl : c = '\n' := by
        simpa [isNl] using hc
      rw [show lineToChar (c :: cs) (m + 1) = 1 + lineToChar cs m by
        simp [lineToChar, hc]]
      cases m with
      | zero => simp [lineToChar, hcnl]
      | succ m2 =>
        have h2a : lenLines (c :: cs) = lenLines cs + 1 := by
          simp [lenLines, List.countP_cons, hc]
        have h2b : m2 + 1 < lenLines cs := by omega
        have hcs : cs ≠ [] := by
          intro hnil
          rw [hnil] at h2b
          simp [lenLines] at h2b
        obtain ⟨j, hj⟩ : ∃ j, lineToChar cs (m2 + 1) = j + 1 := by
          have := one_le_lineToChar m2 hcs
          exact ⟨lineToChar cs (m2 + 1) - 1, by omega⟩
        have hih := ih (m2 + 1) (by omega) h2b
        rw [hj] at hih ⊢
        simpa using hih
    · have h2a : lenLines (c :: cs) = lenLines cs := by
        simp [lenLines, List.countP_cons, hc]
      have h2b : m + 1 < lenLines cs := by omega
      have hcs : cs ≠ [] := by
        intro hnil
        rw [hnil] at h2b
        simp [lenLines] at h2b
      rw [show lineToChar (c :: cs) (m + 1) = 1 + lineToChar cs (m + 1) by
        simp [lineToChar, hc]]
      obtain ⟨j, hj⟩ : ∃ j, lineToChar cs (m + 1) = j + 1 := by
        have := one_le_lineToChar m hcs
        exact ⟨lineToChar cs (m + 1) - 1, by omega⟩
      have hih := ih (m + 1) (by omega) h2b
      rw [hj] at hih ⊢
      simpa using hih

/-- C5 (amended): `move_up` / `move_down` are no-ops at the first /
last line; otherwise they go to
`target_line_start + min(column, ropey length of the target line)`,
where the ropey line length INCLUDES the trailing newline — so the
column is clamped to the target line including its terminator, and the
resulting offset can land one past the target line's newline (exactly
at the start of the line the cursor came from / the line after the
target), but never further. -/
theorem move_up_down_amended (b : Buffer) :
    (charToLine b.content b.cursor_pos = 0 → move_cursor_up b = b) ∧
    (charToLine b.content b.cursor_pos + 1 = lenLines b.content →
      move_cursor_down b = b) ∧
    (∀ L, charToLine b.content b.cursor_pos = L + 1 →
      (move_cursor_up b).cursor_pos =
        lineToChar b.content L +
          min (b.cursor_pos - lineToChar b.content (L + 1))
            (lenChars (ropeLine b.content L)) ∧
      (move_cursor_up b).cursor_pos ≤ lineToChar b.content (L + 1)) ∧
    (charToLine b.content b.cursor_pos + 1 < lenLines b.content →
      (move_cursor_down b).cursor_pos =
        lineToChar b.content (charToLine b.content b.cursor_pos + 1) +
          min (b.cursor_pos -
              lineToChar b.content (charToLine b.content b.cursor_pos))
            (lenChars (ropeLine b.content
              (charToLine b.content b.cursor_pos + 1))) ∧
      (move_cursor_down b).cursor_pos ≤
        lineToChar b.content (charToLine b.content b.cursor_pos + 1 + 1)) := by
  refine ⟨?_, ?_, ?_, ?_⟩
  · intro h
    simp [move_cursor_up, h]
  · intro h
    simp [move_cursor_down, h]
  · intro L hL
    constructor
    · simp [move_cursor_up, hL]
    · simp only [move_cursor_up, hL]
      have h1 := lineToChar_mono b.content L
      have h2 := length_ropeLine b.content L
      have h3 : min (b.cursor_pos - lineToChar b.content (L + 1))
          (lenChars (ropeLine b.content L)) ≤
          lenChars (ropeLine b.content L) := Nat.min_le_right _ _
      omega
  · intro h
    constructor
    · simp [move_cursor_down, h]
    · simp only [move_cursor_down, if_pos h]
      have h1 := lineToChar_mono b.content (charToLine b.content b.cursor_pos + 1)
      have h2 := length_ropeLine b.content (charToLine b.content b.cursor_pos + 1)
      have h3 : min (b.cursor_pos -
            lineToChar b.content (charToLine b.content b.cursor_pos))
          (lenChars (ropeLine b.content
            (charToLine b.content b.cursor_pos + 1))) ≤
          lenChars (ropeLine b.content
            (charToLine b.content b.cursor_pos + 1)) := Nat.min_le_right _ _
      omega

/-- Witness for the amended C5 theorem: the spec's own scenario — in
"abc\ndef\nghi" with the cursor at offset 5 (line 1, column 1),
`move_up` lands at offset 1 ('b'), same column. -/
theorem move_up_down_amended_witness :
    (move_cursor_up exB5s).cursor_pos = 1 := by
  have h := ((move_up_down_amended exB5s).2.2.1 0 (by decide)).1
  rw [h]
  decide

/-- C6 (amended): `move_line_end` sets the cursor to
`line_to_char (line + 1) - 1` (saturating).  On a non-last line this
is the offset OF the line's terminating newline (the insertion point
immediately before it); on the last line it is one before the
document end, `len_chars - 1`, not the document end itself. -/
theorem move_line_end_amended (b : Buffer) :
    (move_cursor_line_end b).cursor_pos =
      lineToChar b.content (charToLine b.content b.cursor_pos + 1) - 1 ∧
    (charToLine b.content b.cursor_pos + 1 = lenLines b.content →
      (move_cursor_line_end b).cursor_pos = lenChars b.content - 1) ∧
    (charToLine b.content b.cursor_pos + 1 < lenLines b.content →
      b.content.get? ((move_cursor_line_end b).cursor_pos) = some '\n') := by
  refine ⟨rfl, ?_, ?_⟩
  · intro h
    simp only [move_cursor_line_end, h, lineToChar_lenLines, lenChars]
  · intro h
    simp only [move_cursor_line_end]
    exact newline_before_line_start _ _ (by omega) h

/-- Witness for the amended C6 theorem: in "abc\ndef\nghi" with the
cursor at offset 5 (line 1, a non-last line), `move_line_end` puts the
cursor on the line's terminating newline. -/
theorem move_line_end_amended_witness :
    exB5s.content.get? ((move_cursor_line_end exB5s).cursor_pos) = some '\n' :=
  (move_line_end_amended exB5s).2.2 (by decide)

/-- A buffer "ab\nxyz\n" with the cursor at offset 0 (line 0),
horizontally scrolled to column 5, past the end of line 1. -/
def exB9 : Buffer :=
  { content := ['a', 'b', '\n', 'x', 'y', 'z', '\n']
    cursor_pos := 0
    scroll_offset := (5, 0)
    is_modified := false
    selection_start := none }

/-- `exB9` in an editor with viewport (10, 24). -/
def exEd9 : Editor :=
  { mode := Mode.Normal
    viewport := (10, 24)
    buffers := [(0, exB9)]
    current_buffer := some 0 }

/-- C9: in the visible-content computation, a line of the visible
range `scroll_y .. min(total_lines, scroll_y + viewport_height)` that
is scrolled entirely past its last character
(`scroll_x >= line_length - 1`) and is not the cursor's line is
emitted as exactly a bare newline; and the emitted content is the
concatenation of the per-line texts over that range. -/
theorem visible_line_bare_newline (e : Editor) (b : Buffer) (line_idx : Nat)
    (hb : e.get_current_buffer = some b)
    (h1 : b.scroll_offset.2 ≤ line_idx)
    (h2 : line_idx < min (lenLines b.content) (b.scroll_offset.2 + e.viewport.2))
    (hpast : lenChars (ropeLine b.content line_idx) - 1 ≤ b.scroll_offset.1)
    (hne : line_idx ≠ charToLine b.content b.cursor_pos) :
    visibleLine e.viewport.1 b.scroll_offset.1
      (charToLine b.content b.cursor_pos) b.content line_idx = ['\n'] ∧
    e.get_visible_content = some
      (((List.range' b.scroll_offset.2
          (min (lenLines b.content) (b.scroll_offset.2 + e.viewport.2) -
            b.scroll_offset.2)).map
        (visibleLine e.viewport.1 b.scroll_offset.1
          (charToLine b.content b.cursor_pos) b.content)).flatten) := by
  constructor
  · simp only [visibleLine]
    rw [if_neg hne, if_pos hpast]
  · simp only [Editor.get_visible_content, hb, Option.map_some']

/-- Witness for the C9 theorem: in `exEd9`, line 1 ("xyz\n", length 4)
with `scroll_x = 5 >= 3` and cursor on line 0 is emitted as a bare
newline. -/
theorem visible_line_bare_newline_witness :
    visibleLine 10 5 0 exB9.content 1 = ['\n'] :=
  (visible_line_bare_newline exEd9 exB9 1 rfl (by decide) (by decide)
    (by decide) (by decide)).1

end Pyne
